import Mathlib

/-!
Verification development for the Starship Architect placement/geometry engine.

The definitions below are a shallow embedding of the JavaScript source:
coordinates and dimensions are rationals (the source uses IEEE doubles; all
behaviour the theorems touch is exact arithmetic, clamping, comparison and
rounding, which agree with the rational model away from float-rounding
extremes), stores are association lists keyed by component index (JS objects
with integer-like keys), and JS array mutation is modelled by explicit list
updates.  Function and field names follow the source.
-/

namespace StarshipArchitect

/-- Model of JS Math.round: round half toward positive infinity. -/
def jsRound (q : ℚ) : ℤ := ⌊q + 1/2⌋

/-- Model of the 0.1-metre rounding used on resize commit:
Math.round(v * 10) / 10. -/
def roundTenth (q : ℚ) : ℚ := (jsRound (q * 10) : ℚ) / 10

/-- One placement rectangle stored in a per-component floors list:
{floor, x, y, length, width}. -/
structure FloorPos where
  floor : ℤ
  x : ℚ
  y : ℚ
  length : ℚ
  width : ℚ
deriving DecidableEq, Repr

/-- Per-component placement record: floors list plus the component-level
fallback dimensions (0 models an absent/undefined JS field: the source reads
them through pos.length || placement.length, where both 0 and undefined are
falsy). -/
structure Placement where
  compLength : ℚ
  compWidth : ℚ
  floors : List FloorPos
deriving DecidableEq, Repr

/-- The placement store shipData.componentPlacements: an association list
from component index to its Placement (JS object with one binding per key). -/
abbrev Store := List (ℤ × Placement)

/-- Effective length of a stored placement: pos.length || placement.length. -/
def effLength (pl : Placement) (pos : FloorPos) : ℚ :=
  if pos.length = 0 then pl.compLength else pos.length

/-- Effective width of a stored placement: pos.width || placement.width. -/
def effWidth (pl : Placement) (pos : FloorPos) : ℚ :=
  if pos.width = 0 then pl.compWidth else pos.width

/-- The axis-aligned rectangle overlap test used inside checkOverlap:
overlap = !(x + length <= pos.x || pos.x + pLength <= x ||
            y + width <= pos.y || pos.y + pWidth <= y). -/
def rectOverlap (ax ay aLen aWid ox oy oLen oWid : ℚ) : Bool :=
  !(decide (ax + aLen ≤ ox) || decide (ox + oLen ≤ ax) ||
    decide (ay + aWid ≤ oy) || decide (oy + oWid ≤ ay))

/-- checkOverlap from placement-logic.js: does the candidate rectangle
overlap any stored placement on the given floor?  A component is skipped
only when excludeComponentIndex >= 0 and matches its index. -/
def checkOverlap (store : Store) (floorIndex : ℤ) (x y length width : ℚ)
    (excludeComponentIndex : ℤ) : Bool :=
  store.any fun entry =>
    if 0 ≤ excludeComponentIndex ∧ entry.1 = excludeComponentIndex then false
    else entry.2.floors.any fun pos =>
      if pos.floor = floorIndex then
        rectOverlap x y length width pos.x pos.y
          (effLength entry.2 pos) (effWidth entry.2 pos)
      else false

/-- The obstacle list gathered by findValidPosition: every placement on the
floor, excluding the excluded component index (here without the >= 0 guard,
exactly as in the source's second loop). -/
def obstaclesOn (store : Store) (floorIndex : ℤ) (excludeComponentIndex : ℤ) :
    List FloorPos :=
  store.flatMap fun entry =>
    if entry.1 = excludeComponentIndex then []
    else entry.2.floors.filterMap fun pos =>
      if pos.floor = floorIndex then
        some { pos with length := effLength entry.2 pos,
                        width := effWidth entry.2 pos }
      else none

/-- Candidate generation of findValidPosition: eight edge/corner-aligned
positions per obstacle, then the four floor-boundary candidates. -/
def rawCandidates (origX origY compLength compWidth floorLength floorWidth : ℚ)
    (obstacles : List FloorPos) : List (ℚ × ℚ) :=
  (obstacles.flatMap fun comp =>
    [(comp.x + comp.length, origY),
     (comp.x - compLength, origY),
     (origX, comp.y + comp.width),
     (origX, comp.y - compWidth),
     (comp.x + comp.length, comp.y + comp.width),
     (comp.x + comp.length, comp.y - compWidth),
     (comp.x - compLength, comp.y + comp.width),
     (comp.x - compLength, comp.y - compWidth)])
  ++ [(0, origY), (floorLength - compLength, origY),
      (origX, 0), (origX, floorWidth - compWidth)]

/-- Math.round(Math.max(0, Math.min(v, bound))): clamp into [0, bound]
(lower bound wins when bound is negative), then snap to the grid. -/
def clampRound (v bound : ℚ) : ℚ := (jsRound (max 0 (min v bound)) : ℤ)

/-- Clamp-and-round one candidate into the floor as findValidPosition does. -/
def snapCandidate (compLength compWidth floorLength floorWidth : ℚ)
    (c : ℚ × ℚ) : ℚ × ℚ :=
  (clampRound c.1 (floorLength - compLength),
   clampRound c.2 (floorWidth - compWidth))

/-- The surviving candidates of findValidPosition: generated, snapped, and
filtered by checkOverlap. -/
def validCandidates (store : Store) (floorIndex : ℤ)
    (origX origY compLength compWidth floorLength floorWidth : ℚ)
    (excludeComponentIndex : ℤ) : List (ℚ × ℚ) :=
  ((rawCandidates origX origY compLength compWidth floorLength floorWidth
      (obstaclesOn store floorIndex excludeComponentIndex)).map
    (snapCandidate compLength compWidth floorLength floorWidth)).filter
    fun p => !(checkOverlap store floorIndex p.1 p.2 compLength compWidth
                excludeComponentIndex)

/-- Squared Euclidean distance to the desired point.  The source sorts by
Math.sqrt of this quantity; square root is strictly monotone on nonnegative
reals, so sorting by the squared distance yields the identical order. -/
def distanceSq (origX origY : ℚ) (p : ℚ × ℚ) : ℚ :=
  (p.1 - origX) * (p.1 - origX) + (p.2 - origY) * (p.2 - origY)

/-- The duplicate-removal pass of findValidPosition: keep the first
occurrence of each exact (x, y), tracked by a seen set. -/
def dedupSeen (seen : List (ℚ × ℚ)) : List (ℚ × ℚ) → List (ℚ × ℚ)
  | [] => []
  | c :: rest =>
    if c ∈ seen then dedupSeen seen rest
    else c :: dedupSeen (c :: seen) rest

/-- findValidPosition from placement-logic.js: return the desired position
unchanged when it does not overlap; otherwise snap, filter, sort by distance
and deduplicate the candidate positions and return the nearest survivor, or
none when no candidate survives. -/
def findValidPosition (store : Store) (floorIndex : ℤ)
    (origX origY compLength compWidth floorLength floorWidth : ℚ)
    (excludeComponentIndex : ℤ) : Option (ℚ × ℚ) :=
  if checkOverlap store floorIndex origX origY compLength compWidth
      excludeComponentIndex = false then
    some (origX, origY)
  else
    let valid := validCandidates store floorIndex origX origY compLength
      compWidth floorLength floorWidth excludeComponentIndex
    let sorted := valid.mergeSort fun a b =>
      decide (distanceSq origX origY a ≤ distanceSq origX origY b)
    match dedupSeen [] sorted with
    | [] => none
    | c :: _ => some c

/-- One undo/redo history entry: {componentIndex, floor, x, y, length, width}. -/
structure HistEntry where
  componentIndex : ℤ
  floor : ℤ
  x : ℚ
  y : ℚ
  length : ℚ
  width : ℚ
deriving DecidableEq, Repr

/-- The mutable session state the committed operations touch: the placement
store plus the two history stacks (uiState.placementHistory and
uiState.redoHistory; stack top is the list end, matching JS push/pop). -/
structure AppState where
  store : Store
  placementHistory : List HistEntry
  redoHistory : List HistEntry
deriving DecidableEq, Repr

/-- uiState.placementData: the data carried while placing a component. -/
structure PlacementData where
  componentIndex : ℤ
  floors : List ℤ
  isMultiFloor : Bool
  length : ℚ
  width : ℚ
deriving DecidableEq, Repr

/-- uiState.selectedPlacement: the active selection. -/
structure Selection where
  componentIndex : ℤ
  floorIndex : ℤ
  placementIndex : ℕ
  length : ℚ
  width : ℚ
  originalX : ℚ
  originalY : ℚ
deriving DecidableEq, Repr

/-- Read shipData.componentPlacements[i] (first binding with that key). -/
def getPlacement : Store → ℤ → Option Placement
  | [], _ => none
  | entry :: rest, i =>
    if entry.1 = i then some entry.2 else getPlacement rest i

/-- Write shipData.componentPlacements[i] = p: replace the existing binding
in place, or append a new binding (JS object insertion order). -/
def setPlacement : Store → ℤ → Placement → Store
  | [], i, p => [(i, p)]
  | entry :: rest, i, p =>
    if entry.1 = i then (i, p) :: rest else entry :: setPlacement rest i p

/-- Model of delete shipData.componentPlacements[i]. -/
def removePlacement : Store → ℤ → Store
  | [], _ => []
  | entry :: rest, i =>
    if entry.1 = i then rest else entry :: removePlacement rest i

/-- placeSingleFloorComponent (placement controller): append the placement to
the component's floors list (creating the entry with no component-level
dimensions when absent), push the history entry, and clear the redo stack.
The multi-quantity continuation logic only drives UI placement mode. -/
def placeSingleFloorComponent (s : AppState) (componentIndex : ℤ)
    (floorIndex : ℤ) (x y compLength compWidth : ℚ) : AppState :=
  let pl := (getPlacement s.store componentIndex).getD ⟨0, 0, []⟩
  let pl2 := { pl with floors :=
    pl.floors ++ [⟨floorIndex, x, y, compLength, compWidth⟩] }
  { store := setPlacement s.store componentIndex pl2,
    placementHistory := s.placementHistory ++
      [⟨componentIndex, floorIndex, x, y, compLength, compWidth⟩],
    redoHistory := [] }

/-- placeMultiFloorComponent (placement controller): first require
findValidPosition to be non-null on every selected floor, then push the same
(x, y) rectangle and a history entry on each floor, and clear the redo
stack; when some floor fails the validation, nothing changes. -/
def placeMultiFloorComponent (s : AppState) (componentIndex : ℤ)
    (floors : List ℤ) (x y compLength compWidth floorLength floorWidth : ℚ) :
    AppState :=
  if floors.all fun f => (findValidPosition s.store f x y compLength
      compWidth floorLength floorWidth (-1)).isSome then
    let ensured := if (getPlacement s.store componentIndex).isSome then
        s.store
      else s.store ++ [(componentIndex, ⟨0, 0, []⟩)]
    let afterStore := floors.foldl (fun st f =>
      match getPlacement st componentIndex with
      | none => st
      | some pl => setPlacement st componentIndex
          { pl with floors :=
              pl.floors ++ [⟨f, x, y, compLength, compWidth⟩] }) ensured
    { store := afterStore,
      placementHistory := s.placementHistory ++ floors.map fun f =>
        ⟨componentIndex, f, x, y, compLength, compWidth⟩,
      redoHistory := [] }
  else s

/-- placeComponentOnCanvas (placement controller): from a click position in
metres, centre the component on the click, snap fully to a floor edge when
the click is within one component dimension of it, clamp into the floor,
round to the grid, run findValidPosition, and dispatch to the single- or
multi-floor commit; a null resolver result leaves the state unchanged (the
source only flashes the canvas). -/
def placeComponentOnCanvas (s : AppState) (data : PlacementData)
    (floorIndex : ℤ) (clickX clickY floorLength floorWidth : ℚ) : AppState :=
  if floorIndex ∈ data.floors then
    let x0 := clickX - data.length / 2
    let y0 := clickY - data.width / 2
    let x1 := if clickX ≤ data.length then 0
      else if clickX ≥ floorLength - data.length then floorLength - data.length
      else x0
    let y1 := if clickY ≤ data.width then 0
      else if clickY ≥ floorWidth - data.width then floorWidth - data.width
      else y0
    let x2 : ℚ := (jsRound (max 0 (min x1 (floorLength - data.length))) : ℤ)
    let y2 : ℚ := (jsRound (max 0 (min y1 (floorWidth - data.width))) : ℤ)
    match findValidPosition s.store floorIndex x2 y2 data.length data.width
        floorLength floorWidth (-1) with
    | none => s
    | some p =>
      if data.isMultiFloor then
        placeMultiFloorComponent s data.componentIndex data.floors p.1 p.2
          data.length data.width floorLength floorWidth
      else
        placeSingleFloorComponent s data.componentIndex floorIndex p.1 p.2
          data.length data.width
  else s

/-- handleComponentMove (component selection module): centre the selected
rectangle on the click, clamp and grid-snap, splice the old placement out,
re-check overlap with no exclusion, and either restore the old placement
(overlap) or append the moved one at the end of the floors list.  Neither
history stack is touched. -/
def handleComponentMove (s : AppState) (sel : Selection) (floorIndex : ℤ)
    (clickX clickY floorLength floorWidth : ℚ) : AppState :=
  let newX : ℚ := (jsRound (max 0 (min (clickX - sel.length / 2)
    (floorLength - sel.length))) : ℤ)
  let newY : ℚ := (jsRound (max 0 (min (clickY - sel.width / 2)
    (floorWidth - sel.width))) : ℤ)
  match getPlacement s.store sel.componentIndex with
  | none => s
  | some pl =>
    let removed := pl.floors.eraseIdx sel.placementIndex
    let storeRemoved := setPlacement s.store sel.componentIndex
      { pl with floors := removed }
    if checkOverlap storeRemoved floorIndex newX newY sel.length sel.width
        (-1) then s
    else
      let moved := { pl with floors :=
        removed ++ [⟨floorIndex, newX, newY, sel.length, sel.width⟩] }
      { s with store := setPlacement s.store sel.componentIndex moved }

/-- deleteSelectedComponent (component selection module): push a history
entry carrying the selection's dimensions, clear the redo stack, splice the
placement out, and drop the component's entry when its floors list becomes
empty.  Invalid selections are no-ops. -/
def deleteSelectedComponent (s : AppState) (sel : Selection) : AppState :=
  match getPlacement s.store sel.componentIndex with
  | none => s
  | some pl =>
    match pl.floors[sel.placementIndex]? with
    | none => s
    | some pos =>
      let newFloors := pl.floors.eraseIdx sel.placementIndex
      { store :=
          if newFloors = [] then removePlacement s.store sel.componentIndex
          else setPlacement s.store sel.componentIndex
            { pl with floors := newFloors },
        placementHistory := s.placementHistory ++
          [⟨sel.componentIndex, pos.floor, pos.x, pos.y, sel.length,
            sel.width⟩],
        redoHistory := [] }

/-- undoLastPlacement (undo-redo.js): pop the newest history entry, move it
to the redo stack, and remove the first placement of that component matching
the entry's (floor, x, y), dropping the component's entry when its floors
list empties.  The re-entry into placement mode only drives UI state. -/
def undoLastPlacement (s : AppState) : AppState :=
  match s.placementHistory.getLast? with
  | none => s
  | some entry =>
    let store2 :=
      match getPlacement s.store entry.componentIndex with
      | none => s.store
      | some pl =>
        match pl.floors.findIdx? fun p =>
            decide (p.floor = entry.floor) && decide (p.x = entry.x) &&
            decide (p.y = entry.y) with
        | none => s.store
        | some idx =>
          let newFloors := pl.floors.eraseIdx idx
          if newFloors = [] then removePlacement s.store entry.componentIndex
          else setPlacement s.store entry.componentIndex
            { pl with floors := newFloors }
    { store := store2,
      placementHistory := s.placementHistory.dropLast,
      redoHistory := s.redoHistory ++ [entry] }

/-- redoLastPlacement (undo-redo.js): pop the newest redo entry, re-append
the recorded placement rectangle (creating the component entry when absent),
and push the entry back onto the undo history. -/
def redoLastPlacement (s : AppState) : AppState :=
  match s.redoHistory.getLast? with
  | none => s
  | some entry =>
    let pl := (getPlacement s.store entry.componentIndex).getD ⟨0, 0, []⟩
    { store := setPlacement s.store entry.componentIndex
        { pl with floors := pl.floors ++
            [⟨entry.floor, entry.x, entry.y, entry.length, entry.width⟩] },
      placementHistory := s.placementHistory ++ [entry],
      redoHistory := s.redoHistory.dropLast }

/-- The four resize edges. -/
inductive Edge
  | top
  | bottom
  | left
  | right
deriving DecidableEq, Repr

/-- Resize result record {length, width, x, y}. -/
structure Box where
  x : ℚ
  y : ℚ
  length : ℚ
  width : ℚ
deriving DecidableEq, Repr

/-- The final bounds check of calculateNewDimensions followed by the
recalculation that re-derives the dependent dimension from the area. -/
def finalBoundsAndArea (edge : Edge) (componentArea floorLength floorWidth : ℚ)
    (step : Box) : Box :=
  let nl := max 1 (min step.length (floorLength - step.x))
  let nw := max 1 (min step.width (floorWidth - step.y))
  match edge with
  | .left | .right =>
    { x := step.x, y := step.y, length := nl, width := componentArea / nl }
  | .top | .bottom =>
    { x := step.x, y := step.y, length := componentArea / nw, width := nw }

/-- calculateNewDimensions (component resize module): per-edge resize with
MIN_DIM = 1, floor-bounds clamping with constrain-by-the-other-dimension
fallback, then the shared final bounds check and exact-area recalculation.
In the left/top branches the source's first newLength/newWidth assignment is
overwritten by the recomputation from the achieved newX/newY and is omitted
here. -/
def calculateNewDimensions (edge : Edge) (deltaMeters originalLength
    originalWidth componentArea originalX originalY floorLength
    floorWidth : ℚ) : Box :=
  let step : Box :=
    match edge with
    | .right =>
      let nl := max 1 (min (originalLength + deltaMeters)
        (floorLength - originalX))
      let nw := componentArea / nl
      if originalY + nw > floorWidth then
        let nw2 := floorWidth - originalY
        { x := originalX, y := originalY, length := componentArea / nw2,
          width := nw2 }
      else { x := originalX, y := originalY, length := nl, width := nw }
    | .left =>
      let nx := max 0 (min (originalX + deltaMeters)
        (originalX + originalLength - 1))
      let nl := (originalX + originalLength) - nx
      let nw := componentArea / nl
      if originalY + nw > floorWidth then
        let nw2 := floorWidth - originalY
        let nl2 := componentArea / nw2
        { x := (originalX + originalLength) - nl2, y := originalY,
          length := nl2, width := nw2 }
      else { x := nx, y := originalY, length := nl, width := nw }
    | .bottom =>
      let nw := max 1 (min (originalWidth + deltaMeters)
        (floorWidth - originalY))
      let nl := componentArea / nw
      if originalX + nl > floorLength then
        let nl2 := floorLength - originalX
        { x := originalX, y := originalY, length := nl2,
          width := componentArea / nl2 }
      else { x := originalX, y := originalY, length := nl, width := nw }
    | .top =>
      let ny := max 0 (min (originalY + deltaMeters)
        (originalY + originalWidth - 1))
      let nw := (originalY + originalWidth) - ny
      let nl := componentArea / nw
      if originalX + nl > floorLength then
        let nl2 := floorLength - originalX
        let nw2 := componentArea / nl2
        { x := originalX, y := (originalY + originalWidth) - nw2,
          length := nl2, width := nw2 }
      else { x := originalX, y := ny, length := nl, width := nw }
  finalBoundsAndArea edge componentArea floorLength floorWidth step

/-- resizeState: the transient session captured at resize start. -/
structure ResizeSession where
  componentIndex : ℤ
  placementIndex : ℕ
  floorIndex : ℤ
  originalX : ℚ
  originalY : ℚ
  originalLength : ℚ
  originalWidth : ℚ
  componentArea : ℚ
  currentX : ℚ
  currentY : ℚ
  currentLength : ℚ
  currentWidth : ℚ
deriving DecidableEq, Repr

/-- startResize: capture the placement's position, effective dimensions and
area (length * width) into a fresh session. -/
def startResize (store : Store) (componentIndex : ℤ) (placementIndex : ℕ)
    (floorIndex : ℤ) : Option ResizeSession :=
  match getPlacement store componentIndex with
  | none => none
  | some pl =>
    match pl.floors[placementIndex]? with
    | none => none
    | some pos =>
      let length := effLength pl pos
      let width := effWidth pl pos
      some ⟨componentIndex, placementIndex, floorIndex, pos.x, pos.y,
        length, width, length * width, pos.x, pos.y, length, width⟩

/-- updateResize: recompute the current rectangle from the original capture
and the pointer delta in metres via calculateNewDimensions. -/
def updateResize (sess : ResizeSession) (edge : Edge)
    (deltaMeters floorLength floorWidth : ℚ) : ResizeSession :=
  let newDims := calculateNewDimensions edge deltaMeters sess.originalLength
    sess.originalWidth sess.componentArea sess.originalX sess.originalY
    floorLength floorWidth
  { sess with
    currentX := newDims.x
    currentY := newDims.y
    currentLength := newDims.length
    currentWidth := newDims.width }

/-- commitResize (component resize module): reject (cancel) when the current
rectangle overlaps anything other than the resized component itself;
otherwise store the current rectangle rounded to 0.1 m.  The history stacks
are not touched. -/
def commitResize (s : AppState) (sess : ResizeSession) : AppState :=
  if checkOverlap s.store sess.floorIndex sess.currentX sess.currentY
      sess.currentLength sess.currentWidth sess.componentIndex then s
  else
    match getPlacement s.store sess.componentIndex with
    | none => s
    | some pl =>
      match pl.floors[sess.placementIndex]? with
      | none => s
      | some pos =>
        let pos2 := { pos with
          x := roundTenth sess.currentX
          y := roundTenth sess.currentY
          length := roundTenth sess.currentLength
          width := roundTenth sess.currentWidth }
        let pl2 := { pl with
          floors := pl.floors.set sess.placementIndex pos2 }
        { s with store := setPlacement s.store sess.componentIndex pl2 }

/-- Every stored placement with its effective dimensions, flattened. -/
def placementsWithDims (store : Store) : List FloorPos :=
  store.flatMap fun entry =>
    entry.2.floors.map fun pos =>
      { pos with length := effLength entry.2 pos,
                 width := effWidth entry.2 pos }

/-- The no-overlap invariant as a boolean check over all unordered pairs of
stored placements (including pairs within one component): rectangles on the
same floor must not overlap. -/
def pairwiseNoOverlap : List FloorPos → Bool
  | [] => true
  | a :: rest =>
    (rest.all fun b =>
      if a.floor = b.floor then
        !rectOverlap a.x a.y a.length a.width b.x b.y b.length b.width
      else true) && pairwiseNoOverlap rest

/-- The shared final step of calculateNewDimensions re-derives the dependent
dimension from the area over a divisor clamped to at least MIN_DIM = 1, so
the returned product is exactly the component area. -/
theorem finalBoundsAndArea_area (edge : Edge)
    (componentArea floorLength floorWidth : ℚ) (step : Box) :
    (finalBoundsAndArea edge componentArea floorLength floorWidth step).length
      * (finalBoundsAndArea edge componentArea floorLength floorWidth
          step).width = componentArea := by
  have hx : (0 : ℚ) < max 1 (min step.length (floorLength - step.x)) :=
    lt_of_lt_of_le one_pos (le_max_left _ _)
  have hy : (0 : ℚ) < max 1 (min step.width (floorWidth - step.y)) :=
    lt_of_lt_of_le one_pos (le_max_left _ _)
  cases edge <;> simp only [finalBoundsAndArea]
  · rw [div_mul_cancel₀ _ (ne_of_gt hy)]
  · rw [div_mul_cancel₀ _ (ne_of_gt hy)]
  · rw [mul_comm, div_mul_cancel₀ _ (ne_of_gt hx)]
  · rw [mul_comm, div_mul_cancel₀ _ (ne_of_gt hx)]

/-- Claim C3, amended: the resize transform preserves the captured area
exactly before commit — for every resize session and pointer update, the
current length times the current width equals the session's componentArea.
The commit then rounds each stored value to 0.1 m (see
commitResize_area_counterexample), so the committed product matches the
original area only up to that rounding, not to within a small epsilon. -/
theorem updateResize_preserves_area (sess : ResizeSession) (edge : Edge)
    (deltaMeters floorLength floorWidth : ℚ) :
    (updateResize sess edge deltaMeters floorLength floorWidth).currentLength
      * (updateResize sess edge deltaMeters floorLength
          floorWidth).currentWidth = sess.componentArea := by
  simp only [updateResize, calculateNewDimensions]
  exact finalBoundsAndArea_area edge sess.componentArea floorLength
    floorWidth _

/-- Counterexample to claim C3 as stated: a resize session started on a 3x3
placement (area 9) on a 100x100 floor, with the right edge dragged by
+0.3 m, commits a 3.3 x 2.7 rectangle; the committed area 8.91 differs from
the original area 9 by 0.09, which is not below a float-precision epsilon
(taking epsilon = 1/100 as a generous such tolerance). -/
theorem commitResize_area_counterexample :
    startResize [((0 : ℤ), (⟨0, 0, [⟨1, 0, 0, 3, 3⟩]⟩ : Placement))] 0 0 1 =
      some ⟨0, 0, 1, 0, 0, 3, 3, 9, 0, 0, 3, 3⟩ ∧
    (commitResize ⟨[(0, ⟨0, 0, [⟨1, 0, 0, 3, 3⟩]⟩)], [], []⟩
        (updateResize ⟨0, 0, 1, 0, 0, 3, 3, 9, 0, 0, 3, 3⟩ .right (3/10)
          100 100)).store
      = [(0, ⟨0, 0, [⟨1, 0, 0, 33/10, 27/10⟩]⟩)] ∧
    (9 : ℚ) - (33/10) * (27/10) = 9/100 ∧
    ¬((9 : ℚ)/100 < 1/100) := by
  refine ⟨?_, ?_, by norm_num, by norm_num⟩
  · norm_num [startResize, getPlacement, effLength, effWidth]
  · norm_num [commitResize, updateResize, calculateNewDimensions,
      finalBoundsAndArea, checkOverlap, rectOverlap, getPlacement,
      setPlacement, effLength, effWidth, roundTenth, jsRound]

/-- Claim C5 is violated by the code: dragging the right edge of a 20x1
rectangle (area 20) at the origin of a 30x30 floor by +5 m yields length 25
and width 20/25 = 0.8 < 1; the final exact-area recalculation overrides the
MIN_DIM = 1 clamp on the dependent dimension. -/
theorem calculateNewDimensions_min_dim_violation :
    calculateNewDimensions .right 5 20 1 20 0 0 30 30 =
      ⟨0, 0, 25, 4/5⟩ ∧ (4/5 : ℚ) < 1 := by
  constructor
  · norm_num [calculateNewDimensions, finalBoundsAndArea]
  · norm_num

/-- Claim C1 is violated by the code: starting from the empty store, a
committed single-floor placement of component 0 on floor 2 at (0,0) size 2x2
(10x10 floors) followed by a committed multi-floor placement of component 1
on floors {1,2} (clicked on the empty floor 1 at the same spot) yields a
store in which components 0 and 1 overlap on floor 2.  The multi-floor
commit validates each floor only through findValidPosition being non-null
and then commits the original, unadjusted position on every floor. -/
theorem noOverlap_invariant_violation :
    pairwiseNoOverlap (placementsWithDims
      (placeComponentOnCanvas
        (placeComponentOnCanvas ⟨[], [], []⟩ ⟨0, [2], false, 2, 2⟩ 2 1 1
          10 10)
        ⟨1, [1, 2], true, 2, 2⟩ 1 1 1 10 10).store) = false := by
  norm_num [placeComponentOnCanvas, placeSingleFloorComponent,
    placeMultiFloorComponent, findValidPosition, validCandidates,
    rawCandidates, snapCandidate, clampRound, obstaclesOn, checkOverlap,
    rectOverlap, effLength, effWidth, distanceSq, dedupSeen, jsRound,
    getPlacement, setPlacement, placementsWithDims, pairwiseNoOverlap,
    List.mergeSort, List.flatMap_cons, List.flatMap_nil, List.filterMap_cons,
    List.filterMap_nil, List.filter_cons, List.filter_nil, List.foldl_cons,
    List.foldl_nil]

/-- Claim C2 is violated by the code: with component 0 already placed on
floor 2 at (0,0) size 2x2, the multi-floor placement of component 1 at
(0,0) on floors {1,2} is blocked on floor 2 (checkOverlap is true there),
yet the attempt mutates the store and places component 1 on both target
floors at the blocked position, because the validation only asks
findValidPosition for a non-null (adjusted) answer and then ignores it. -/
theorem multiFloor_atomicity_violation :
    checkOverlap (placeComponentOnCanvas ⟨[], [], []⟩ ⟨0, [2], false, 2, 2⟩
      2 1 1 10 10).store 2 0 0 2 2 (-1) = true ∧
    getPlacement (placeMultiFloorComponent
      (placeComponentOnCanvas ⟨[], [], []⟩ ⟨0, [2], false, 2, 2⟩ 2 1 1 10 10)
      1 [1, 2] 0 0 2 2 10 10).store 1 =
      some ⟨0, 0, [⟨1, 0, 0, 2, 2⟩, ⟨2, 0, 0, 2, 2⟩]⟩ := by
  constructor
  · norm_num [placeComponentOnCanvas, placeSingleFloorComponent,
      findValidPosition, checkOverlap, rectOverlap, effLength, effWidth,
      jsRound, getPlacement, setPlacement]
  · norm_num [placeComponentOnCanvas, placeSingleFloorComponent,
      placeMultiFloorComponent, findValidPosition, validCandidates,
      rawCandidates, snapCandidate, clampRound, obstaclesOn, checkOverlap,
      rectOverlap, effLength, effWidth, distanceSq, dedupSeen, jsRound,
      getPlacement, setPlacement, List.mergeSort, List.flatMap_cons,
      List.flatMap_nil, List.filterMap_cons, List.filterMap_nil,
      List.filter_cons, List.filter_nil, List.foldl_cons, List.foldl_nil]

/-- Counterexample to claim C4 as stated: place components 0 and 1 on floor
1 (10x10), undo the second placement (the redo stack now holds its entry),
then commit a move of component 0 by clicking at (6,6).  The move commits —
the store changes to the moved rectangle — but the redo stack still holds
the undone entry: committed moves never clear (or even touch) the redo
stack. -/
theorem redoClear_counterexample :
    (handleComponentMove
      (undoLastPlacement
        (placeComponentOnCanvas
          (placeComponentOnCanvas ⟨[], [], []⟩ ⟨0, [1], false, 2, 2⟩ 1 1 1
            10 10)
          ⟨1, [1], false, 2, 2⟩ 1 4 1 10 10))
      ⟨0, 1, 0, 2, 2, 0, 0⟩ 1 6 6 10 10).store
      = [(0, ⟨0, 0, [⟨1, 5, 5, 2, 2⟩]⟩)] ∧
    (undoLastPlacement
      (placeComponentOnCanvas
        (placeComponentOnCanvas ⟨[], [], []⟩ ⟨0, [1], false, 2, 2⟩ 1 1 1
          10 10)
        ⟨1, [1], false, 2, 2⟩ 1 4 1 10 10)).store
      = [(0, ⟨0, 0, [⟨1, 0, 0, 2, 2⟩]⟩)] ∧
    (handleComponentMove
      (undoLastPlacement
        (placeComponentOnCanvas
          (placeComponentOnCanvas ⟨[], [], []⟩ ⟨0, [1], false, 2, 2⟩ 1 1 1
            10 10)
          ⟨1, [1], false, 2, 2⟩ 1 4 1 10 10))
      ⟨0, 1, 0, 2, 2, 0, 0⟩ 1 6 6 10 10).redoHistory
      = [⟨1, 1, 3, 0, 2, 2⟩] ∧
    ([⟨1, 1, 3, 0, 2, 2⟩] : List HistEntry) ≠ [] := by
  refine ⟨?_, ?_, ?_, by simp⟩ <;>
    norm_num [placeComponentOnCanvas, placeSingleFloorComponent,
      findValidPosition, checkOverlap, rectOverlap, effLength, effWidth,
      jsRound, getPlacement, setPlacement, removePlacement,
      undoLastPlacement, handleComponentMove, List.findIdx?]

/-- Counterexample to claim C6 as stated: on a 10x1 floor with one 1.5x1
placement at (7,0), requesting a 1.5x1 rectangle at the overlapping desired
position (7,0) returns (9,0) — but 9 is outside [0, floorLength - length] =
[0, 8.5].  The source clamps candidates into that interval before rounding
to the grid, so the snap can overshoot the upper bound by up to 0.5 m. -/
theorem findValidPosition_bounds_counterexample :
    (3/2 : ℚ) ≤ 10 ∧
    checkOverlap [((0 : ℤ), (⟨0, 0, [⟨1, 7, 0, 3/2, 1⟩]⟩ : Placement))] 1
      7 0 (3/2) 1 (-1) = true ∧
    findValidPosition [((0 : ℤ), (⟨0, 0, [⟨1, 7, 0, 3/2, 1⟩]⟩ : Placement))]
      1 7 0 (3/2) 1 10 1 (-1) = some (9, 0) ∧
    ¬((9 : ℚ) ≤ 10 - 3/2) := by
  refine ⟨by norm_num, ?_, ?_, by norm_num⟩ <;>
    norm_num [findValidPosition, validCandidates, rawCandidates,
      snapCandidate, clampRound, obstaclesOn, checkOverlap, rectOverlap,
      effLength, effWidth, distanceSq, dedupSeen, jsRound, List.mergeSort,
      List.flatMap_cons, List.flatMap_nil, List.filterMap_cons,
      List.filterMap_nil, List.filter_cons, List.filter_nil]

/-- Claim C4, amended: committed placements (single- and multi-floor) and
committed deletes clear the redo stack; committed moves and resize commits
leave the redo stack unchanged, since they are not recorded in the history
at all (see redoClear_counterexample). -/
theorem redoClear_amended :
    (∀ (s : AppState) (componentIndex floorIndex : ℤ)
      (x y compLength compWidth : ℚ),
      (placeSingleFloorComponent s componentIndex floorIndex x y compLength
        compWidth).redoHistory = []) ∧
    (∀ (s : AppState) (componentIndex : ℤ) (floors : List ℤ)
      (x y compLength compWidth floorLength floorWidth : ℚ),
      (floors.all fun f => (findValidPosition s.store f x y compLength
        compWidth floorLength floorWidth (-1)).isSome) = true →
      (placeMultiFloorComponent s componentIndex floors x y compLength
        compWidth floorLength floorWidth).redoHistory = []) ∧
    (∀ (s : AppState) (sel : Selection) (pl : Placement) (pos : FloorPos),
      getPlacement s.store sel.componentIndex = some pl →
      pl.floors[sel.placementIndex]? = some pos →
      (deleteSelectedComponent s sel).redoHistory = []) := by
  refine ⟨fun s ci f x y cl cw => rfl, fun s ci floors x y cl cw fl fw h =>
    ?_, fun s sel pl pos h1 h2 => ?_⟩
  · simp [placeMultiFloorComponent, h]
  · simp [deleteSelectedComponent, h1, h2]

/-- Witness for redoClear_amended: concrete instances of all three cleared
operations. -/
theorem redoClear_amended_witness :
    (placeSingleFloorComponent ⟨[], [], []⟩ 0 1 0 0 2 2).redoHistory = [] ∧
    (placeMultiFloorComponent ⟨[], [], []⟩ 0 [1] 0 0 2 2 10 10).redoHistory
      = [] ∧
    (deleteSelectedComponent ⟨[(0, ⟨0, 0, [⟨1, 0, 0, 2, 2⟩]⟩)], [], []⟩
      ⟨0, 1, 0, 2, 2, 0, 0⟩).redoHistory = [] := by
  refine ⟨redoClear_amended.1 ⟨[], [], []⟩ 0 1 0 0 2 2,
    redoClear_amended.2.1 ⟨[], [], []⟩ 0 [1] 0 0 2 2 10 10 ?_,
    redoClear_amended.2.2 _ ⟨0, 1, 0, 2, 2, 0, 0⟩ ⟨0, 0, [⟨1, 0, 0, 2, 2⟩]⟩
      ⟨1, 0, 0, 2, 2⟩ ?_ ?_⟩
  · norm_num [findValidPosition, checkOverlap]
  · norm_num [getPlacement]
  · norm_num

/-- Snapped candidate coordinates land in [0, bound + 1/2] whenever the
clamp bound is nonnegative: the clamp confines the value to [0, bound] and
Math.round moves it by at most 1/2 upward and never below 0. -/
theorem clampRound_bounds (v bound : ℚ) (hb : 0 ≤ bound) :
    0 ≤ clampRound v bound ∧ clampRound v bound ≤ bound + 1/2 := by
  have h0 : (0 : ℚ) ≤ max 0 (min v bound) := le_max_left 0 _
  have h1 : max 0 (min v bound) ≤ bound :=
    max_le hb (min_le_right v bound)
  constructor
  · have : (0 : ℤ) ≤ jsRound (max 0 (min v bound)) := by
      rw [jsRound, Int.le_floor]
      push_cast
      linarith
    unfold clampRound
    exact_mod_cast this
  · have h2 : (jsRound (max 0 (min v bound)) : ℚ) ≤ max 0 (min v bound) + 1/2 := by
      rw [jsRound]
      exact_mod_cast Int.floor_le (max 0 (min v bound) + 1/2)
    unfold clampRound
    linarith

/-- Witness for clampRound_bounds at a concrete fractional input. -/
theorem clampRound_bounds_witness :
    (0 : ℚ) ≤ 17/2 ∧ 0 ≤ clampRound (17/2) (17/2) ∧
      clampRound (17/2) (17/2) ≤ 17/2 + 1/2 := by
  refine ⟨by norm_num, clampRound_bounds (17/2) (17/2) (by norm_num)⟩

/-- checkOverlap with the no-exclusion sentinel reports true as soon as one
stored placement on the floor overlaps the candidate rectangle. -/
theorem checkOverlap_of_mem {store : Store} {i : ℤ} {pl : Placement}
    {pos : FloorPos} {floorIndex : ℤ} {x y length width : ℚ}
    (hmem : (i, pl) ∈ store) (hpos : pos ∈ pl.floors)
    (hfl : pos.floor = floorIndex)
    (hov : rectOverlap x y length width pos.x pos.y (effLength pl pos)
      (effWidth pl pos) = true) :
    checkOverlap store floorIndex x y length width (-1) = true := by
  unfold checkOverlap
  rw [List.any_eq_true]
  refine ⟨(i, pl), hmem, ?_⟩
  have : ¬((0 : ℤ) ≤ -1 ∧ i = -1) := by
    rintro ⟨h, -⟩
    norm_num at h
  rw [if_neg this, List.any_eq_true]
  exact ⟨pos, hpos, by rw [if_pos hfl]; exact hov⟩

/-- Witness for checkOverlap_of_mem on a one-placement store. -/
theorem checkOverlap_of_mem_witness :
    checkOverlap [((0 : ℤ), (⟨0, 0, [⟨1, 0, 0, 5, 5⟩]⟩ : Placement))] 1
      1 1 1 1 (-1) = true :=
  checkOverlap_of_mem (List.mem_singleton.mpr rfl)
    (List.mem_singleton.mpr rfl) rfl (by norm_num [rectOverlap, effLength,
      effWidth])

/-- Claim C7: on a 5x5 floor fully occupied by a single 5x5 placement,
findValidPosition returns null for every requested placement rectangle of
size at least 1x1 lying on the floor, with no exclusion.  Every candidate is
clamped into [0, 5 - length] x [0, 5 - width] and rounded, which keeps both
coordinates inside [0, 4.5], so the candidate rectangle always intersects
the full-floor placement and is filtered out. -/
theorem findValidPosition_exhausted_null (x y length width : ℚ)
    (hl : 1 ≤ length) (hw : 1 ≤ width) (hx0 : 0 ≤ x) (hy0 : 0 ≤ y)
    (hxl : x + length ≤ 5) (hyw : y + width ≤ 5) :
    findValidPosition [((0 : ℤ), (⟨0, 0, [⟨1, 0, 0, 5, 5⟩]⟩ : Placement))] 1
      x y length width 5 5 (-1) = none := by
  have hover : ∀ a b : ℚ, 0 ≤ a → a < 5 → 0 ≤ b → b < 5 →
      checkOverlap [((0 : ℤ), (⟨0, 0, [⟨1, 0, 0, 5, 5⟩]⟩ : Placement))] 1
        a b length width (-1) = true := by
    intro a b ha ha5 hb hb5
    refine checkOverlap_of_mem (List.mem_singleton.mpr rfl)
      (List.mem_singleton.mpr rfl) rfl ?_
    simp only [rectOverlap, effLength, effWidth]
    norm_num
    exact ⟨⟨⟨by linarith, ha5⟩, by linarith⟩, hb5⟩
  have hinit : checkOverlap
      [((0 : ℤ), (⟨0, 0, [⟨1, 0, 0, 5, 5⟩]⟩ : Placement))] 1 x y length
      width (-1) = true :=
    hover x y hx0 (by linarith) hy0 (by linarith)
  have hempty : validCandidates
      [((0 : ℤ), (⟨0, 0, [⟨1, 0, 0, 5, 5⟩]⟩ : Placement))] 1 x y length
      width 5 5 (-1) = [] := by
    rw [validCandidates, List.filter_eq_nil_iff]
    intro p hp
    rw [List.mem_map] at hp
    obtain ⟨c, -, rfl⟩ := hp
    have hbx := clampRound_bounds c.1 (5 - length) (by linarith)
    have hby := clampRound_bounds c.2 (5 - width) (by linarith)
    simp only [snapCandidate, Bool.not_eq_true', Bool.not_eq_false]
    exact hover _ _ hbx.1 (by linarith [hbx.2]) hby.1 (by linarith [hby.2])
  rw [findValidPosition, if_neg (by rw [hinit]; simp), hempty]
  simp [dedupSeen]

/-- Witness for findValidPosition_exhausted_null: requesting a 1x1 rectangle
at the origin of the fully occupied 5x5 floor yields null. -/
theorem findValidPosition_exhausted_null_witness :
    (1 : ℚ) ≤ 1 ∧ (0 : ℚ) + 1 ≤ 5 ∧
    findValidPosition [((0 : ℤ), (⟨0, 0, [⟨1, 0, 0, 5, 5⟩]⟩ : Placement))] 1
      0 0 1 1 5 5 (-1) = none := by
  exact ⟨le_refl 1, by norm_num, findValidPosition_exhausted_null 0 0 1 1
    (le_refl 1) (le_refl 1) (le_refl 0) (le_refl 0) (by norm_num)
    (by norm_num)⟩

/-- Reading a just-written binding returns the written placement. -/
theorem getPlacement_set_self (s : Store) (i : ℤ) (p : Placement) :
    getPlacement (setPlacement s i p) i = some p := by
  induction s with
  | nil => simp [setPlacement, getPlacement]
  | cons e rest ih =>
    by_cases h : e.1 = i
    · simp [setPlacement, getPlacement, h]
    · simp [setPlacement, getPlacement, h, ih]

/-- Writing an absent key appends the binding at the end (JS insertion order). -/
theorem set_of_get_none (s : Store) (i : ℤ) (p : Placement)
    (h : getPlacement s i = none) : setPlacement s i p = s ++ [(i, p)] := by
  induction s with
  | nil => simp [setPlacement]
  | cons e rest ih =>
    rw [getPlacement] at h
    by_cases he : e.1 = i
    · simp [he] at h
    · rw [if_neg he] at h
      simp [setPlacement, he, ih h]

/-- Deleting a key that only occurs in the appended binding restores the store. -/
theorem remove_append_of_get_none (s : Store) (i : ℤ) (p : Placement)
    (h : getPlacement s i = none) :
    removePlacement (s ++ [(i, p)]) i = s := by
  induction s with
  | nil => simp [removePlacement]
  | cons e rest ih =>
    rw [getPlacement] at h
    by_cases he : e.1 = i
    · simp [he] at h
    · rw [if_neg he] at h
      simp [removePlacement, he, ih h]

/-- Overwriting a binding and then writing back its original value restores the store. -/
theorem set_set_restore (s : Store) (i : ℤ) (p pl : Placement)
    (h : getPlacement s i = some pl) :
    setPlacement (setPlacement s i p) i pl = s := by
  induction s with
  | nil => simp [getPlacement] at h
  | cons e rest ih =>
    rw [getPlacement] at h
    by_cases he : e.1 = i
    · rw [if_pos he] at h
      have : e = (i, pl) := by
        cases e
        simp_all
      simp [setPlacement, he, this]
    · rw [if_neg he] at h
      simp [setPlacement, he, ih h]

/-- A successful store read exhibits the binding as a list member. -/
theorem mem_of_get_some (s : Store) (i : ℤ) (pl : Placement)
    (h : getPlacement s i = some pl) : (i, pl) ∈ s := by
  induction s with
  | nil => simp [getPlacement] at h
  | cons e rest ih =>
    rw [getPlacement] at h
    by_cases he : e.1 = i
    · rw [if_pos he] at h
      have : e = (i, pl) := by
        cases e
        simp_all
      simp [this]
    · rw [if_neg he] at h
      exact List.mem_cons_of_mem e (ih h)

/-- findIdx? on a list whose only match is the appended element returns its index. -/
theorem findIdx?_concat_of_none {α : Type} (p : α → Bool) (l : List α)
    (x : α) (h : ∀ a ∈ l, p a = false) (hx : p x = true) :
    (l ++ [x]).findIdx? p = some l.length := by
  rw [List.findIdx?_append]
  have hnone : l.findIdx? p = none := by
    rw [List.findIdx?_eq_none_iff]
    intro a ha
    simp [h a ha]
  rw [hnone]
  simp [List.findIdx?, hx]

/-- Erasing the appended last element restores the list. -/
theorem eraseIdx_concat {α : Type} (l : List α) (x : α) :
    (l ++ [x]).eraseIdx l.length = l := by
  rw [List.eraseIdx_append_of_length_le (le_refl l.length)]
  simp



/-- Round-trip case: the placed component had no store entry before. -/
theorem round_trip_none (s : AppState) (ci f : ℤ) (x y cl cw : ℚ)
    (hget : getPlacement s.store ci = none) :
    (undoLastPlacement (placeSingleFloorComponent s ci f x y cl cw)).store
      = s.store ∧
    (undoLastPlacement (placeSingleFloorComponent s ci f x y cl
      cw)).placementHistory = s.placementHistory ∧
    redoLastPlacement (undoLastPlacement (placeSingleFloorComponent s ci f
      x y cl cw)) = placeSingleFloorComponent s ci f x y cl cw := by
  have hplace : placeSingleFloorComponent s ci f x y cl cw =
      ⟨setPlacement s.store ci ⟨0, 0, [⟨f, x, y, cl, cw⟩]⟩,
       s.placementHistory ++ [⟨ci, f, x, y, cl, cw⟩], []⟩ := by
    simp [placeSingleFloorComponent, hget]
  have hundo : undoLastPlacement (placeSingleFloorComponent s ci f x y cl cw)
      = ⟨s.store, s.placementHistory, [⟨ci, f, x, y, cl, cw⟩]⟩ := by
    rw [hplace, undoLastPlacement]
    simp only [List.getLast?_concat, getPlacement_set_self, List.findIdx?,
      decide_True, Bool.and_self, if_true, List.eraseIdx,
      List.dropLast_concat]
    rw [set_of_get_none s.store ci _ hget,
      remove_append_of_get_none s.store ci _ hget]
    simp
  have hredo : redoLastPlacement ⟨s.store, s.placementHistory,
      [⟨ci, f, x, y, cl, cw⟩]⟩ = placeSingleFloorComponent s ci f x y cl cw := by
    rw [redoLastPlacement, hplace]
    simp [hget]
  rw [hundo]
  exact ⟨rfl, rfl, hredo⟩



/-- Round-trip case: the component already has an entry, and no prior placement of it sits at the same (floor, x, y). -/
theorem round_trip_some (s : AppState) (ci f : ℤ) (x y cl cw : ℚ)
    (pl0 : Placement) (hget : getPlacement s.store ci = some pl0)
    (hne : pl0.floors ≠ [])
    (hfree : ∀ p ∈ pl0.floors, ¬(p.floor = f ∧ p.x = x ∧ p.y = y)) :
    (undoLastPlacement (placeSingleFloorComponent s ci f x y cl cw)).store
      = s.store ∧
    (undoLastPlacement (placeSingleFloorComponent s ci f x y cl
      cw)).placementHistory = s.placementHistory ∧
    redoLastPlacement (undoLastPlacement (placeSingleFloorComponent s ci f
      x y cl cw)) = placeSingleFloorComponent s ci f x y cl cw := by
  have hplace : placeSingleFloorComponent s ci f x y cl cw =
      ⟨setPlacement s.store ci
        { pl0 with floors := pl0.floors ++ [⟨f, x, y, cl, cw⟩] },
       s.placementHistory ++ [⟨ci, f, x, y, cl, cw⟩], []⟩ := by
    simp [placeSingleFloorComponent, hget]
  have hfind : (pl0.floors ++ [(⟨f, x, y, cl, cw⟩ : FloorPos)]).findIdx?
      (fun p => decide (p.floor = f) && decide (p.x = x) && decide (p.y = y))
      = some pl0.floors.length := by
    refine findIdx?_concat_of_none _ _ _ (fun a ha => ?_) (by simp)
    rw [Bool.eq_false_iff]
    intro hcontra
    simp only [Bool.and_eq_true, decide_eq_true_eq] at hcontra
    exact hfree a ha ⟨hcontra.1.1, hcontra.1.2, hcontra.2⟩
  have hundo : undoLastPlacement (placeSingleFloorComponent s ci f x y cl cw)
      = ⟨s.store, s.placementHistory, [⟨ci, f, x, y, cl, cw⟩]⟩ := by
    rw [hplace, undoLastPlacement]
    simp only [List.getLast?_concat, getPlacement_set_self, hfind,
      eraseIdx_concat, List.dropLast_concat]
    rw [if_neg hne]
    rw [set_set_restore s.store ci _ pl0 hget]
    simp
  have hredo : redoLastPlacement ⟨s.store, s.placementHistory,
      [⟨ci, f, x, y, cl, cw⟩]⟩ = placeSingleFloorComponent s ci f x y cl
        cw := by
    rw [redoLastPlacement, hplace]
    simp [hget]
  rw [hundo]
  exact ⟨rfl, rfl, hredo⟩



/-- Claim C8: committing a single-floor placement and then undoing restores
the Placement Store and the undo history exactly (hence the same set of
placements); redoing immediately afterwards re-inserts exactly the undone
placement, restoring the full post-placement state.  The hypotheses state
the committed-flow context: the placement passed the overlap check against
the store, dimensions are positive, and the store is well-formed (no empty
floors lists, positive effective dimensions) — together these rule out a
pre-existing placement of the same component at the same (floor, x, y),
which is what undo's match-by-value splice keys on. -/
theorem undo_redo_round_trip (s : AppState) (componentIndex floorIndex : ℤ)
    (x y compLength compWidth : ℚ) (hl : 0 < compLength)
    (hw : 0 < compWidth)
    (hwf : ∀ e ∈ s.store, e.2.floors ≠ [] ∧ ∀ pos ∈ e.2.floors,
      0 < effLength e.2 pos ∧ 0 < effWidth e.2 pos)
    (hcommit : checkOverlap s.store floorIndex x y compLength compWidth (-1)
      = false) :
    (undoLastPlacement (placeSingleFloorComponent s componentIndex
      floorIndex x y compLength compWidth)).store = s.store ∧
    (undoLastPlacement (placeSingleFloorComponent s componentIndex
      floorIndex x y compLength compWidth)).placementHistory
      = s.placementHistory ∧
    redoLastPlacement (undoLastPlacement (placeSingleFloorComponent s
      componentIndex floorIndex x y compLength compWidth))
      = placeSingleFloorComponent s componentIndex floorIndex x y compLength
        compWidth := by
  rcases hget : getPlacement s.store componentIndex with _ | pl0
  · exact round_trip_none s componentIndex floorIndex x y compLength
      compWidth hget
  · have hm := mem_of_get_some s.store componentIndex pl0 hget
    have hwfe := hwf (componentIndex, pl0) hm
    refine round_trip_some s componentIndex floorIndex x y compLength
      compWidth pl0 hget hwfe.1 ?_
    intro p hp hmatch
    obtain ⟨hfl, hpx, hpy⟩ := hmatch
    have hpos := hwfe.2 p hp
    have hov : rectOverlap x y compLength compWidth p.x p.y
        (effLength pl0 p) (effWidth pl0 p) = true := by
      have h1 : ¬(x + compLength ≤ p.x) := by
        rw [hpx]
        linarith
      have h2 : ¬(p.x + effLength pl0 p ≤ x) := by
        rw [hpx]
        linarith [hpos.1]
      have h3 : ¬(y + compWidth ≤ p.y) := by
        rw [hpy]
        linarith
      have h4 : ¬(p.y + effWidth pl0 p ≤ y) := by
        rw [hpy]
        linarith [hpos.2]
      simp [rectOverlap, h1, h2, h3, h4]
    have htrue := checkOverlap_of_mem hm hp hfl hov
    rw [hcommit] at htrue
    simp at htrue

/-- Witness for undo_redo_round_trip: a store holding component 5 on floor
2; placing component 0 on floor 1 at (0,0) size 2x2, undoing, and redoing
round-trips exactly. -/
theorem undo_redo_round_trip_witness :
    checkOverlap [((5 : ℤ), (⟨0, 0, [⟨2, 3, 3, 1, 1⟩]⟩ : Placement))] 1
      0 0 2 2 (-1) = false ∧
    (undoLastPlacement (placeSingleFloorComponent
      ⟨[(5, ⟨0, 0, [⟨2, 3, 3, 1, 1⟩]⟩)], [], []⟩ 0 1 0 0 2 2)).store
      = [(5, ⟨0, 0, [⟨2, 3, 3, 1, 1⟩]⟩)] ∧
    redoLastPlacement (undoLastPlacement (placeSingleFloorComponent
      ⟨[(5, ⟨0, 0, [⟨2, 3, 3, 1, 1⟩]⟩)], [], []⟩ 0 1 0 0 2 2))
      = placeSingleFloorComponent
        ⟨[(5, ⟨0, 0, [⟨2, 3, 3, 1, 1⟩]⟩)], [], []⟩ 0 1 0 0 2 2 := by
  have hcommit : checkOverlap [((5 : ℤ),
      (⟨0, 0, [⟨2, 3, 3, 1, 1⟩]⟩ : Placement))] 1 0 0 2 2 (-1) = false := by
    norm_num [checkOverlap, rectOverlap, effLength, effWidth]
  have h := undo_redo_round_trip
    ⟨[(5, ⟨0, 0, [⟨2, 3, 3, 1, 1⟩]⟩)], [], []⟩ 0 1 0 0 2 2 (by norm_num)
    (by norm_num) ?_ hcommit
  · exact ⟨hcommit, h.1, h.2.2⟩
  · intro e he
    simp only [List.mem_singleton] at he
    subst he
    norm_num [effLength, effWidth]

/-- The deduplication pass never changes the head of its input. -/
theorem dedupSeen_nil_head (l : List (ℚ × ℚ)) (c : ℚ × ℚ) (t : List (ℚ × ℚ))
    (h : dedupSeen [] l = c :: t) : ∃ t2, l = c :: t2 := by
  cases l with
  | nil => simp [dedupSeen] at h
  | cons a l2 =>
    have ha : dedupSeen [] (a :: l2) = a :: dedupSeen [a] l2 := by
      simp [dedupSeen]
    rw [ha] at h
    injection h with h1 _
    exact ⟨l2, by rw [h1]⟩

/-- Claim C6, amended: when the desired rectangle overlaps some
non-excluded placement and the component fits the floor, every non-null
result of findValidPosition has whole-metre integer coordinates, lies in
[0, floorLength - length + 1/2] x [0, floorWidth - width + 1/2] (the clamp
into [0, floorLength - length] x [0, floorWidth - width] happens before
grid-snap rounding, which can overshoot the upper bounds by up to half a
metre — see findValidPosition_bounds_counterexample), overlaps no
non-excluded placement, is itself a surviving candidate, and no surviving
candidate is strictly closer to the desired point (stated via squared
Euclidean distance, an order-equivalent measure); and when no candidate
survives filtering the result is null. -/
theorem findValidPosition_spec (store : Store) (floorIndex : ℤ)
    (origX origY compLength compWidth floorLength floorWidth : ℚ)
    (excludeComponentIndex : ℤ)
    (hfitl : compLength ≤ floorLength) (hfitw : compWidth ≤ floorWidth)
    (hover : checkOverlap store floorIndex origX origY compLength compWidth
      excludeComponentIndex = true) :
    (∀ p, findValidPosition store floorIndex origX origY compLength
        compWidth floorLength floorWidth excludeComponentIndex = some p →
      (∃ m n : ℤ, p.1 = (m : ℚ) ∧ p.2 = (n : ℚ)) ∧
      (0 ≤ p.1 ∧ p.1 ≤ floorLength - compLength + 1/2) ∧
      (0 ≤ p.2 ∧ p.2 ≤ floorWidth - compWidth + 1/2) ∧
      checkOverlap store floorIndex p.1 p.2 compLength compWidth
        excludeComponentIndex = false ∧
      p ∈ validCandidates store floorIndex origX origY compLength compWidth
        floorLength floorWidth excludeComponentIndex ∧
      ∀ q ∈ validCandidates store floorIndex origX origY compLength
        compWidth floorLength floorWidth excludeComponentIndex,
        distanceSq origX origY p ≤ distanceSq origX origY q) ∧
    (validCandidates store floorIndex origX origY compLength compWidth
        floorLength floorWidth excludeComponentIndex = [] →
      findValidPosition store floorIndex origX origY compLength compWidth
        floorLength floorWidth excludeComponentIndex = none) := by
  have hcond : ¬(checkOverlap store floorIndex origX origY compLength
      compWidth excludeComponentIndex = false) := by
    rw [hover]
    simp
  constructor
  · intro p hres
    rw [findValidPosition, if_neg hcond] at hres
    simp only [] at hres
    cases hd : dedupSeen [] ((validCandidates store floorIndex origX origY
        compLength compWidth floorLength floorWidth
        excludeComponentIndex).mergeSort fun a b =>
          decide (distanceSq origX origY a ≤ distanceSq origX origY b)) with
    | nil =>
      rw [hd] at hres
      exact absurd hres (by simp)
    | cons c t =>
      rw [hd] at hres
      have hpc : c = p := by
        simpa using hres
      obtain ⟨t2, hsorted_eq⟩ := dedupSeen_nil_head _ _ _ hd
      have hperm := List.mergeSort_perm (validCandidates store floorIndex
        origX origY compLength compWidth floorLength floorWidth
        excludeComponentIndex) fun a b =>
          decide (distanceSq origX origY a ≤ distanceSq origX origY b)
      have hmem_valid : p ∈ validCandidates store floorIndex origX origY
          compLength compWidth floorLength floorWidth
          excludeComponentIndex := by
        rw [← hpc]
        exact hperm.mem_iff.mp (by rw [hsorted_eq]; exact List.mem_cons_self c t2)
      have hmem_valid2 := hmem_valid
      rw [validCandidates] at hmem_valid2
      obtain ⟨hmemmap, hfilter⟩ := List.mem_filter.mp hmem_valid2
      obtain ⟨c0, -, heq⟩ := List.mem_map.mp hmemmap
      have hnoov : checkOverlap store floorIndex p.1 p.2 compLength
          compWidth excludeComponentIndex = false := by
        simpa using hfilter
      have hbx := clampRound_bounds c0.1 (floorLength - compLength)
        (by linarith)
      have hby := clampRound_bounds c0.2 (floorWidth - compWidth)
        (by linarith)
      have hp1 : p.1 = clampRound c0.1 (floorLength - compLength) := by
        rw [← heq]
        rfl
      have hp2 : p.2 = clampRound c0.2 (floorWidth - compWidth) := by
        rw [← heq]
        rfl
      refine ⟨⟨jsRound (max 0 (min c0.1 (floorLength - compLength))),
        jsRound (max 0 (min c0.2 (floorWidth - compWidth))), ?_, ?_⟩,
        ⟨?_, ?_⟩, ⟨?_, ?_⟩, hnoov, hmem_valid, ?_⟩
      · rw [hp1, clampRound]
      · rw [hp2, clampRound]
      · rw [hp1]
        exact hbx.1
      · rw [hp1]
        linarith [hbx.2]
      · rw [hp2]
        exact hby.1
      · rw [hp2]
        linarith [hby.2]
      · intro q hq
        have htrans : ∀ a b c : ℚ × ℚ,
            (fun a b => decide (distanceSq origX origY a ≤
              distanceSq origX origY b)) a b = true →
            (fun a b => decide (distanceSq origX origY a ≤
              distanceSq origX origY b)) b c = true →
            (fun a b => decide (distanceSq origX origY a ≤
              distanceSq origX origY b)) a c = true := by
          intro a b c hab hbc
          simp only [decide_eq_true_eq] at hab hbc ⊢
          exact le_trans hab hbc
        have htotal : ∀ a b : ℚ × ℚ,
            ((fun a b => decide (distanceSq origX origY a ≤
              distanceSq origX origY b)) a b ||
             (fun a b => decide (distanceSq origX origY a ≤
              distanceSq origX origY b)) b a) = true := by
          intro a b
          simp only [Bool.or_eq_true, decide_eq_true_eq]
          exact le_total _ _
        have hsorted := List.sorted_mergeSort htrans htotal
          (validCandidates store floorIndex origX origY compLength
            compWidth floorLength floorWidth excludeComponentIndex)
        rw [hsorted_eq] at hsorted
        have hhead := (List.pairwise_cons.mp hsorted).1
        have hq_sorted : q ∈ c :: t2 := by
          rw [← hsorted_eq]
          exact hperm.mem_iff.mpr hq
        rcases List.mem_cons.mp hq_sorted with hqc | hqt
        · rw [← hpc, hqc]
        · have := hhead q hqt
          simp only [decide_eq_true_eq] at this
          rw [← hpc]
          exact this
  · intro hempty
    rw [findValidPosition, if_neg hcond, hempty]
    simp [dedupSeen]



/-- Witness for findValidPosition_spec on the specification's own resolver
example: floor 10x10, placement (0,0,5,5), desired 5x5 at (0,0) resolves to
(5,0), which satisfies every clause of the specification. -/
theorem findValidPosition_spec_witness :
    checkOverlap [((0 : ℤ), (⟨0, 0, [⟨1, 0, 0, 5, 5⟩]⟩ : Placement))] 1
      0 0 5 5 (-1) = true ∧
    findValidPosition [((0 : ℤ), (⟨0, 0, [⟨1, 0, 0, 5, 5⟩]⟩ : Placement))] 1
      0 0 5 5 10 10 (-1) = some (5, 0) ∧
    ((∃ m n : ℤ, (5 : ℚ) = (m : ℚ) ∧ (0 : ℚ) = (n : ℚ)) ∧
     ((0 : ℚ) ≤ 5 ∧ (5 : ℚ) ≤ 10 - 5 + 1/2) ∧
     ((0 : ℚ) ≤ 0 ∧ (0 : ℚ) ≤ 10 - 5 + 1/2) ∧
     checkOverlap [((0 : ℤ), (⟨0, 0, [⟨1, 0, 0, 5, 5⟩]⟩ : Placement))] 1
       5 0 5 5 (-1) = false ∧
     (5, 0) ∈ validCandidates [((0 : ℤ),
       (⟨0, 0, [⟨1, 0, 0, 5, 5⟩]⟩ : Placement))] 1 0 0 5 5 10 10 (-1) ∧
     ∀ q ∈ validCandidates [((0 : ℤ),
       (⟨0, 0, [⟨1, 0, 0, 5, 5⟩]⟩ : Placement))] 1 0 0 5 5 10 10 (-1),
       distanceSq 0 0 ((5 : ℚ), (0 : ℚ)) ≤ distanceSq 0 0 q) := by
  have hover : checkOverlap [((0 : ℤ),
      (⟨0, 0, [⟨1, 0, 0, 5, 5⟩]⟩ : Placement))] 1 0 0 5 5 (-1) = true := by
    norm_num [checkOverlap, rectOverlap, effLength, effWidth]
  have hres : findValidPosition [((0 : ℤ),
      (⟨0, 0, [⟨1, 0, 0, 5, 5⟩]⟩ : Placement))] 1 0 0 5 5 10 10 (-1)
      = some (5, 0) := by
    norm_num [findValidPosition, validCandidates, rawCandidates,
      snapCandidate, clampRound, obstaclesOn, checkOverlap, rectOverlap,
      effLength, effWidth, distanceSq, dedupSeen, jsRound, List.mergeSort,
      List.flatMap_cons, List.flatMap_nil, List.filterMap_cons,
      List.filterMap_nil, List.filter_cons, List.filter_nil]
  have h := (findValidPosition_spec
    [((0 : ℤ), (⟨0, 0, [⟨1, 0, 0, 5, 5⟩]⟩ : Placement))] 1 0 0 5 5 10 10
    (-1) (by norm_num) (by norm_num) hover).1 (5, 0) hres
  exact ⟨hover, hres, h⟩

/-- Claim C9: the overlap test used by checkOverlap returns true iff the
separating-axis disjunction fails; in particular rectangles touching along
an edge (coordinate equality) are reported as non-overlapping.  checkOverlap
is embedded as a pure function of the store, so evaluating it cannot change
the store. -/
theorem rectOverlap_spec (ax ay aLen aWid ox oy oLen oWid : ℚ) :
    (rectOverlap ax ay aLen aWid ox oy oLen oWid = true ↔
      ¬(ax + aLen ≤ ox ∨ ox + oLen ≤ ax ∨ ay + aWid ≤ oy ∨ oy + oWid ≤ ay)) ∧
    (ax + aLen = ox → rectOverlap ax ay aLen aWid ox oy oLen oWid = false) := by
  constructor
  · simp [rectOverlap, or_assoc, and_assoc]
  · intro h
    simp [rectOverlap, h]

/-- Witness for rectOverlap_spec: two unit squares touching along the edge
x = 1 are reported as non-overlapping. -/
theorem rectOverlap_spec_witness :
    (0 : ℚ) + 1 = 1 ∧ rectOverlap 0 0 1 1 1 0 1 1 = false := by
  refine ⟨by norm_num, (rectOverlap_spec 0 0 1 1 1 0 1 1).2 (by norm_num)⟩

/-- Claim C10: when the desired rectangle overlaps nothing, findValidPosition
returns the desired coordinates exactly as given, with no clamping to the
floor and no rounding, even for fractional or out-of-bounds positions. -/
theorem findValidPosition_fast_path (store : Store) (floorIndex : ℤ)
    (origX origY compLength compWidth floorLength floorWidth : ℚ)
    (excludeComponentIndex : ℤ)
    (h : checkOverlap store floorIndex origX origY compLength compWidth
      excludeComponentIndex = false) :
    findValidPosition store floorIndex origX origY compLength compWidth
      floorLength floorWidth excludeComponentIndex = some (origX, origY) := by
  simp [findValidPosition, h]

/-- Witness for findValidPosition_fast_path: with a 5x5 placement filling a
5x5 floor, a request at the fractional, far out-of-bounds position
(201/2, 13/4) overlaps nothing and is returned verbatim. -/
theorem findValidPosition_fast_path_witness :
    checkOverlap [(0, ⟨0, 0, [⟨1, 0, 0, 5, 5⟩]⟩)] 1 (201/2) (13/4) 1 1 (-1)
      = false ∧
    findValidPosition [(0, ⟨0, 0, [⟨1, 0, 0, 5, 5⟩]⟩)] 1 (201/2) (13/4) 1 1
      5 5 (-1) = some (201/2, 13/4) := by
  have h : checkOverlap [((0 : ℤ), (⟨0, 0, [⟨1, 0, 0, 5, 5⟩]⟩ : Placement))]
      1 (201/2) (13/4) 1 1 (-1) = false := by
    norm_num [checkOverlap, rectOverlap, effLength, effWidth]
  exact ⟨h, findValidPosition_fast_path _ _ _ _ _ _ _ _ _ h⟩

end StarshipArchitect
